import Mathlib

/-!
Verification of the squeezeDetMX KITTI record pipeline (`squeezeDetMX/kitti.py`).

The development shallowly embeds, in Lean:
  * the byte-level record framing written by `KITTIWriter.byteIter` and read
    back by `KITTIIter.read_image` / `KITTIIter.read_label` / `KITTIIter.step`;
  * the fixed-width bounding-box codec (`struct.pack`/`unpack` with format
    `'ffffi'`, 20 bytes, little-endian);
  * the anchor-grid generator `create_anchors`;
  * the grid-label encoder `KITTIIter.batch_label_to_mx`.

Bytes are modelled as natural numbers below 256; machine sizes are `Nat` with
explicit bounds; box/anchor geometry is modelled over `ℚ` (the Python floats
here are only built from integer constants by `+ - * /` and compared, so the
rational model tracks the source's arithmetic exactly); `f32`/`i32` fields of
the box codec are modelled by their bit patterns, since the codec only moves
bits and never does float arithmetic.

The repository's `constants.py` and `utils.py` are not part of the sources
available here; the handful of values and helpers taken from them are each
marked `Modelled from the spec:` in their doc comment.
-/

namespace SqueezeDetMX

/-! ## Little-endian byte helpers -/

/-- Modelled from the spec: `utils.size_in_bytes(obj, slot)` produces the
little-endian encoding of a length in a fixed number `slot` of bytes
(`len(obj).to_bytes(slot, 'little')`).  `leBytes slot n` is that encoding. -/
def leBytes : ℕ → ℕ → List ℕ
  | 0, _ => []
  | k + 1, n => (n % 256) :: leBytes k (n / 256)

/-- `int.from_bytes(bs, 'little')`: interpret a byte list as a little-endian
natural number. -/
def leNat : List ℕ → ℕ
  | [] => 0
  | b :: bs => b + 256 * leNat bs

/-! ## Record-format constants -/

/-- Modelled from the spec: `constants.IMAGE_BYTES_SLOT`, the fixed width of
the image-size field.  The spec's record grammar fixes it:
`image_frame := image_size:u16-LE image_bytes[image_size]` — two bytes. -/
def IMAGE_BYTES_SLOT : ℕ := 2

/-- Modelled from the spec: `constants.BBOXES_BYTES_SLOT`, the fixed width of
the label-size field: `label_frame := label_size:u32-LE ...` — four bytes. -/
def BBOXES_BYTES_SLOT : ℕ := 4

/-- The fixed width of one encoded bounding box: `struct.calcsize('ffffi')`,
four little-endian `f32` fields plus one little-endian `i32` field. -/
def BBOX_WIDTH : ℕ := 20

/-! ## Bounding-box codec (format `'ffffi'`)

A box is modelled by the bit patterns of its five fields: the codec only
serialises bits, so `f32` fields are naturals below `2^32` and the `i32`
class field is an integer in `[-2^31, 2^31)`. -/

structure BBoxBits where
  xb : ℕ
  yb : ℕ
  wb : ℕ
  hb : ℕ
  cls : ℤ
deriving DecidableEq

/-- Two's-complement `i32` bit pattern of an integer, as `struct.pack('i', c)`
lays it down. -/
def i32bits (c : ℤ) : ℕ := (c % 4294967296).toNat

/-- Recover the signed value from an `i32` bit pattern, as
`struct.unpack('i', ...)` does. -/
def decodeI32 (n : ℕ) : ℤ := if n < 2147483648 then (n : ℤ) else (n : ℤ) - 4294967296

/-- `struct.pack('ffffi', x, y, w, h, cls)`: the 20-byte little-endian
encoding of one box (`KITTIWriter.byteIter`, kitti.py:120-121). -/
def encodeBBox (b : BBoxBits) : List ℕ :=
  leBytes 4 b.xb ++ leBytes 4 b.yb ++ leBytes 4 b.wb ++ leBytes 4 b.hb ++
    leBytes 4 (i32bits b.cls)

/-- `struct.unpack('ffffi', bs)` on a 20-byte chunk
(`KITTIIter.read_label`, kitti.py:222-224).  `struct.unpack` requires the
buffer length to equal the format size exactly. -/
def decodeBBox (l : List ℕ) : Option BBoxBits :=
  if l.length = BBOX_WIDTH then
    some ⟨leNat (l.take 4), leNat ((l.drop 4).take 4), leNat ((l.drop 8).take 4),
      leNat ((l.drop 12).take 4), decodeI32 (leNat ((l.drop 16).take 4))⟩
  else none

/-- `f32` bit pattern has a clear sign bit (value is non-negative, `+0.0`
included). -/
def f32Nonneg (n : ℕ) : Prop := n < 2147483648

/-- `f32` bit pattern denotes a finite value: exponent bits not all ones. -/
def f32Finite (n : ℕ) : Prop := n / 8388608 % 256 ≠ 255

instance (n : ℕ) : Decidable (f32Nonneg n) := by unfold f32Nonneg; infer_instance
instance (n : ℕ) : Decidable (f32Finite n) := by unfold f32Finite; infer_instance

/-! ## Record framing -/

/-- One record as `KITTIWriter.byteIter` emits it (kitti.py:113-126):
image-size field, image bytes, label-size field, concatenated encoded boxes. -/
def writeRecord (image : List ℕ) (boxes : List BBoxBits) : List ℕ :=
  let bboxesBytes := (boxes.map encodeBBox).flatten
  leBytes IMAGE_BYTES_SLOT image.length ++ image ++
    leBytes BBOXES_BYTES_SLOT bboxesBytes.length ++ bboxesBytes

/-- Signals raised by the reader: `step` raises `StopIteration` on an empty
buffer (clean end of stream) and on a too-short buffer (after printing the
truncation warning) — the two branches of kitti.py:269-273 — and
`read_label`'s assertion failure on a label blob whose declared size is not a
multiple of the box width (kitti.py:220-221). -/
inductive Sig where
  | cleanEOS : Sig
  | truncated : Sig
  | malformedLabel : Sig
deriving DecidableEq

/-- `KITTIIter.step(steps)` (kitti.py:267-275), with the byte buffer
`self.bytedata` passed explicitly: returns the result (or the raised signal)
together with the buffer state after the call.  Both failure branches raise
before the buffer is sliced, so they leave the buffer unchanged. -/
def stepRead (steps : ℕ) (buf : List ℕ) : Except Sig (List ℕ) × List ℕ :=
  if buf = [] then (.error .cleanEOS, buf)
  else if buf.length < steps then (.error .truncated, buf)
  else (.ok (buf.take steps), buf.drop steps)

/-- `KITTIIter.read_image` (kitti.py:202-205): reads the image-size field —
with the hard-coded width `15` of the source, `self.step(15)` — then the
image blob.  The JPEG decode applied to the blob is an external collaborator;
the raw image bytes are returned. -/
def readImage (buf : List ℕ) : Except Sig (List ℕ) × List ℕ :=
  match stepRead 15 buf with
  | (.error e, b) => (.error e, b)
  | (.ok szBytes, b) =>
    match stepRead (leNat szBytes) b with
    | (.error e, b') => (.error e, b')
    | (.ok img, b') => (.ok img, b')

/-- Helper for `readLabel`: unpack `n` consecutive 20-byte box entries. -/
def readBoxes : ℕ → List ℕ → Except Sig (List BBoxBits) × List ℕ
  | 0, buf => (.ok [], buf)
  | n + 1, buf =>
    match stepRead BBOX_WIDTH buf with
    | (.error e, b) => (.error e, b)
    | (.ok chunk, b) =>
      match readBoxes n b with
      | (.error e, b') => (.error e, b')
      | (.ok rest, b') =>
        match decodeBBox chunk with
        | some bb => (.ok (bb :: rest), b')
        | none => (.ok rest, b')

/-- `KITTIIter.read_label` (kitti.py:215-224): reads the 4-byte label-size
field, checks the declared size is an exact multiple of the 20-byte box
width (the source asserts `num_labels % 1 == 0` on the true division
`labels_size / label_size`, which for sizes below `2^32` holds exactly when
`labels_size % 20 == 0`), then unpacks that many boxes. -/
def readLabel (buf : List ℕ) : Except Sig (List BBoxBits) × List ℕ :=
  match stepRead BBOXES_BYTES_SLOT buf with
  | (.error e, b) => (.error e, b)
  | (.ok szBytes, b) =>
    let labelsSize := leNat szBytes
    if labelsSize % BBOX_WIDTH = 0 then readBoxes (labelsSize / BBOX_WIDTH) b
    else (.error .malformedLabel, b)

/-- One full record read, as `KITTIIter.next` performs it per example:
`read_image` then `read_label` (kitti.py:187-188). -/
def readRecord (buf : List ℕ) : Except Sig (List ℕ × List BBoxBits) × List ℕ :=
  match readImage buf with
  | (.error e, b) => (.error e, b)
  | (.ok img, b) =>
    match readLabel b with
    | (.error e, b') => (.error e, b')
    | (.ok boxes, b') => (.ok (img, boxes), b')

/-! ## Anchor geometry and the grid-label encoder

Geometry is over `ℚ`.  A box or anchor is its `(center_x, center_y, width,
height)` vector; the encoder reads only these four components of a label
(`bbox[:4]`, kitti.py:250/264), so the class field is not carried here. -/

structure Box4 where
  x : ℚ
  y : ℚ
  w : ℚ
  h : ℚ
deriving DecidableEq

/-- Grid width used by `batch_label_to_mx`: `constants.GRID_WIDTH`, fixed by
the source docstring "The grid is 76 wide and 22 high" (kitti.py:232). -/
def GRID_WIDTH : ℕ := 76

/-- Grid height used by `batch_label_to_mx`: `constants.GRID_HEIGHT` = 22
(kitti.py:232). -/
def GRID_HEIGHT : ℕ := 22

/-- `constants.ANCHORS_PER_GRID`: "each grid contains 9 anchors"
(kitti.py:232-233). -/
def ANCHORS_PER_GRID : ℕ := 9

/-- Modelled from the spec: `utils.batch_iou` scores one candidate box
against an anchor by Intersection-over-Union on axis-aligned boxes
parameterised by `(center, width, height)`: "ratio of overlapping area to
union area between two axis-aligned boxes; 0 when disjoint, 1 when
identical". -/
def iou (a b : Box4) : ℚ :=
  let iw := min (a.x + a.w / 2) (b.x + b.w / 2) - max (a.x - a.w / 2) (b.x - b.w / 2)
  let ih := min (a.y + a.h / 2) (b.y + b.h / 2) - max (a.y - a.h / 2) (b.y - b.h / 2)
  if 0 < iw ∧ 0 < ih then iw * ih / (a.w * a.h + b.w * b.h - iw * ih) else 0

/-- Squared Euclidean distance between two geometry vectors.  The source
computes `np.linalg.norm(bbox[:4] - anchor)` (kitti.py:250); since the square
root is strictly monotone on non-negative reals, taking `argmax` over the
squared distances selects exactly the index the source selects over the
distances themselves. -/
def distSq (a b : Box4) : ℚ :=
  (a.x - b.x) ^ 2 + (a.y - b.y) ^ 2 + (a.w - b.w) ^ 2 + (a.h - b.h) ^ 2

/-- `np.argmax` with explicit accumulator: first index attaining the running
maximum (later elements replace only on a strictly larger value). -/
def argmaxFrom : List ℚ → ℕ → ℕ → ℚ → ℕ
  | [], _, best, _ => best
  | d :: ds, i, best, bestVal =>
    if bestVal < d then argmaxFrom ds (i + 1) i d
    else argmaxFrom ds (i + 1) best bestVal

/-- `np.argmax` over a list of scores (first occurrence of the maximum). -/
def argmax : List ℚ → ℕ
  | [] => 0
  | d :: ds => argmaxFrom ds 1 0 d

/-- `max(dists)` for the IoU score list.  IoU scores are non-negative, so
folding `max` from `0` agrees with Python's `max` on every non-empty score
list the source builds. -/
def listMax (l : List ℚ) : ℚ := l.foldr max 0

/-- Steps 1-2 of `batch_label_to_mx` (kitti.py:247-254): score every anchor
by IoU; if the maximum IoU is 0, rescore by Euclidean distance
(`np.linalg.norm`, argmax-equivalently its square); select `np.argmax` of the
score list. -/
def selectAnchor (anchors : List Box4) (b : Box4) : ℕ :=
  let dists := anchors.map (fun a => iou a b)
  if listMax dists = 0 then argmax (anchors.map (fun a => distSq a b))
  else argmax dists

/-- `int(anchor_x // GRID_WIDTH)` (kitti.py:261): the spatial row index the
source computes from the selected anchor's center-x pixel coordinate. -/
def gridXOf (anchors : List Box4) (idx : ℕ) : ℤ :=
  ⌊(anchors.getD idx ⟨0, 0, 0, 0⟩).x / (GRID_WIDTH : ℚ)⌋

/-- `int(anchor_y // GRID_HEIGHT)` (kitti.py:262). -/
def gridYOf (anchors : List Box4) (idx : ℕ) : ℤ :=
  ⌊(anchors.getD idx ⟨0, 0, 0, 0⟩).y / (GRID_HEIGHT : ℚ)⌋

/-- One write into `final_label` (kitti.py:264): example index, channel
offset `air = anchor_index % ANCHORS_PER_GRID`, the two spatial indices, and
the box geometry placed there.  The output tensor is determined by the
ordered list of these writes. -/
structure Write where
  ex : ℕ
  air : ℕ
  gx : ℤ
  gy : ℤ
  geom : Box4
deriving DecidableEq

/-- Step 3 of `batch_label_to_mx` (kitti.py:259-264) for a selected,
unclaimed anchor. -/
def mkWrite (anchors : List Box4) (i idx : ℕ) (b : Box4) : Write :=
  ⟨i, idx % ANCHORS_PER_GRID, gridXOf anchors idx, gridYOf anchors idx, b⟩

/-- Body of the inner loop of `batch_label_to_mx` (kitti.py:246-264) on the
state `(taken_anchor_indices, writes so far)`: select the anchor; skip the
box if the anchor is already claimed; otherwise claim it and write. -/
def encodeBox (anchors : List Box4) (i : ℕ) (st : List ℕ × List Write)
    (b : Box4) : List ℕ × List Write :=
  let idx := selectAnchor anchors b
  if idx ∈ st.1 then st
  else (idx :: st.1, st.2 ++ [mkWrite anchors i idx b])

/-- Inner loop `for bbox in bboxes` of `batch_label_to_mx`. -/
def encodeBoxes (anchors : List Box4) (i : ℕ) :
    List Box4 → List ℕ × List Write → List ℕ × List Write
  | [], st => st
  | b :: bs, st => encodeBoxes anchors i bs (encodeBox anchors i st b)

/-- Outer loop `for i, bboxes in enumerate(labels)` of `batch_label_to_mx`.
The state — including `taken_anchor_indices`, initialised once at
kitti.py:242 — is threaded across examples, exactly as in the source. -/
def encodeExamples (anchors : List Box4) :
    ℕ → List (List Box4) → List ℕ × List Write → List ℕ × List Write
  | _, [], st => st
  | i, bs :: rest, st => encodeExamples anchors (i + 1) rest (encodeBoxes anchors i bs st)

/-- `KITTIIter.batch_label_to_mx(labels)` (kitti.py:226-265), observed as the
ordered list of writes it performs into the zero-initialised tensor. -/
def encodeBatch (anchors : List Box4) (labels : List (List Box4)) : List Write :=
  (encodeExamples anchors 0 labels ([], [])).2

/-- The `num` interior breakpoints of `np.linspace(0, limit, num+2)[1:-1]`:
divide `[0, limit]` into `num+1` equal intervals and keep the interior
endpoints. -/
def interior (limit : ℚ) (num : ℕ) : List ℚ :=
  (List.range num).map (fun i : ℕ => limit * ((i : ℚ) + 1) / ((num : ℚ) + 1))

/-- `create_anchors(num_x, num_y, whs)` (kitti.py:93-100) with the image
dimensions `IMAGE_WIDTH`/`IMAGE_HEIGHT` (fixed module constants from the
absent `constants.py`) passed explicitly as `W`/`H`.  Note the source builds
`ys` with `np.linspace(0, IMAGE_HEIGHT, num_x+2)` — `num_x`, not `num_y`
(kitti.py:99) — which is replicated here. -/
def createAnchors (numX numY : ℕ) (whs : List (ℚ × ℚ)) (W H : ℚ) : List Box4 :=
  let xs := interior W numX
  let ys := interior H numX
  xs.flatMap (fun x => ys.flatMap (fun y => whs.map (fun wh => ⟨x, y, wh.1, wh.2⟩)))

/-- Modelled from the spec: the grid-label encoder with the claimed-anchor
set "constructed fresh per call, not a reused/cleared structure" — each
example's boxes are encoded starting from an empty claimed set.  Used only to
exhibit how the source's shared-set behaviour diverges from it. -/
def encodeExamplesFresh (anchors : List Box4) : ℕ → List (List Box4) → List Write
  | _, [] => []
  | i, bs :: rest =>
    (encodeBoxes anchors i bs ([], [])).2 ++ encodeExamplesFresh anchors (i + 1) rest

/-- Modelled from the spec: per-example encoding of a whole batch with a
fresh claimed-anchor set for every example. -/
def encodeBatchFresh (anchors : List Box4) (labels : List (List Box4)) : List Write :=
  encodeExamplesFresh anchors 0 labels

/-- The grid position and shape offset that the claims recover from a flat
anchor index alone, per the generation order `x` outer, `y` inner, then
shape: `flat = (x_idx * num_y + y_idx) * num_shapes + shape_idx`, so
`x_idx = flat div (num_y * num_shapes)`,
`y_idx = (flat div num_shapes) mod num_y`, `shape_idx = flat mod num_shapes`. -/
def indexDecomp (numY numShapes idx : ℕ) : ℕ × ℕ × ℕ :=
  (idx / (numY * numShapes), idx / numShapes % numY, idx % numShapes)

/-- Modelled from the spec: `constants.RANDOM_WIDTHS_HEIGHTS`, the fixed list
of `ANCHORS_PER_GRID = 9` anchor shapes `(w, h)`; the spec records only that
it is a list of shape pairs preserved in input order, so a concrete
nine-entry table is used for the concrete instances below. -/
def whs9 : List (ℚ × ℚ) :=
  [(36, 37), (366, 174), (115, 59), (162, 87), (38, 90),
   (258, 173), (224, 108), (78, 170), (72, 43)]

/-- The anchor table `KITTIIter.anchors = create_anchors()` (kitti.py:143)
with the default arguments `num_x = GRID_WIDTH`, `num_y = GRID_HEIGHT`,
`whs = RANDOM_WIDTHS_HEIGHTS`, instantiated at reference image dimensions
1242 × 375 (KITTI) for the concrete statements below. -/
def anchorsKITTI : List Box4 := createAnchors GRID_WIDTH GRID_HEIGHT whs9 1242 375

/-! Concrete fixtures for the grid-label encoder claims. -/

/-- A two-anchor table: one anchor near the origin corner, one far from it. -/
def anchorsPair : List Box4 := [⟨10, 10, 2, 2⟩, ⟨100, 100, 2, 2⟩]

/-- A box overlapping neither anchor of `anchorsPair`, geometrically much
closer to the first. -/
def boxNoOverlap : Box4 := ⟨13, 13, 2, 2⟩

/-- A two-anchor table with well-separated unit-free anchors for the
first-come-first-served fixtures. -/
def anchorsFCFS : List Box4 := [⟨10, 10, 4, 4⟩, ⟨30, 10, 4, 4⟩]

/-- A box coinciding with the first anchor of `anchorsFCFS`. -/
def boxA : Box4 := ⟨10, 10, 4, 4⟩

/-- A second box overlapping the first anchor of `anchorsFCFS` most. -/
def boxB : Box4 := ⟨11, 10, 4, 4⟩

end SqueezeDetMX

namespace SqueezeDetMX

/-! ## Supporting lemmas -/

theorem leBytes_length (k n : ℕ) : (leBytes k n).length = k := by
  induction k generalizing n with
  | zero => rfl
  | succ k ih => simp [leBytes, ih]

theorem leNat_leBytes (k n : ℕ) (h : n < 256 ^ k) : leNat (leBytes k n) = n := by
  induction k generalizing n with
  | zero => simp at h; simp [leBytes, leNat, h]
  | succ k ih =>
      have hk : n / 256 < 256 ^ k := by
        rw [Nat.div_lt_iff_lt_mul (by norm_num : 0 < 256)]
        calc n < 256 ^ (k + 1) := h
        _ = 256 ^ k * 256 := by ring
      simp [leBytes, leNat, ih (n / 256) hk]
      omega

theorem stepRead_ok {n : ℕ} {buf : List ℕ} (hne : buf ≠ []) (hn : n ≤ buf.length) :
    stepRead n buf = (.ok (buf.take n), buf.drop n) := by
  unfold stepRead
  simp [hne, Nat.not_lt.mpr hn]

theorem decodeI32_i32bits (c : ℤ) (h1 : -2147483648 ≤ c) (h2 : c < 2147483648) :
    decodeI32 (i32bits c) = c := by
  have h5 := Int.emod_add_ediv c 4294967296
  have h3 : 0 ≤ c % 4294967296 := Int.emod_nonneg c (by norm_num)
  have h4 : c % 4294967296 < 4294967296 := Int.emod_lt_of_pos c (by norm_num)
  unfold decodeI32 i32bits
  split <;> omega

theorem flatMap_length_uniform {α β : Type} (f : α → List β) (m : ℕ)
    (hm : ∀ a, (f a).length = m) : ∀ l : List α, (l.flatMap f).length = l.length * m
  | [] => by simp
  | a :: l => by
      simp only [List.flatMap_cons, List.length_append, hm a,
        flatMap_length_uniform f m hm l, List.length_cons]
      ring

theorem flatMap_getD_uniform {α β : Type} (f : α → List β) (m : ℕ)
    (hm : ∀ a, (f a).length = m) (dβ : β) (dα : α) :
    ∀ (l : List α) (q r : ℕ), q < l.length → r < m →
      (l.flatMap f).getD (q * m + r) dβ = (f (l.getD q dα)).getD r dβ
  | [], q, _, hq, _ => by simp at hq
  | a :: l, 0, r, _, hr => by
      rw [List.flatMap_cons, List.getD_append _ _ _ _ (by rw [hm a]; simpa using hr)]
      simp
  | a :: l, q + 1, r, hq, hr => by
      rw [List.flatMap_cons,
        List.getD_append_right _ _ _ _ (by rw [hm a]; nlinarith [Nat.zero_le r])]
      rw [hm a, show (q + 1) * m + r - m = q * m + r by ring_nf; omega]
      rw [flatMap_getD_uniform f m hm dβ dα l q r (by simpa using hq) hr]
      simp

theorem map_getD {α β : Type} (f : α → β) (d : β) (dα : α) :
    ∀ (l : List α) (k : ℕ), k < l.length → (l.map f).getD k d = f (l.getD k dα)
  | a :: l, 0, _ => rfl
  | a :: l, k + 1, h => map_getD f d dα l k (by simpa using h)
  | [], k, h => by simp at h

theorem range_getD (n q : ℕ) (h : q < n) : (List.range n).getD q 0 = q := by
  rw [List.getD_eq_getElem _ _ (by simpa using h)]
  simp

theorem interior_length (limit : ℚ) (num : ℕ) : (interior limit num).length = num := by
  unfold interior
  rw [List.length_map, List.length_range]

theorem interior_getD (limit : ℚ) (num q : ℕ) (h : q < num) :
    (interior limit num).getD q 0 = limit * (q + 1) / (num + 1) := by
  unfold interior
  rw [map_getD (fun i : ℕ => limit * ((i : ℚ) + 1) / ((num : ℚ) + 1)) 0 0
    (List.range num) q (by rw [List.length_range]; exact h)]
  rw [range_getD num q h]

/-- The generation-order invariant of `create_anchors`: the anchor at flat
index `(i * num_x + j) * len(whs) + k` — `x` outer, `y` inner, then shape —
has center `(W*(i+1)/(num_x+1), H*(j+1)/(num_x+1))` and the `k`-th shape.
(The `y` axis is also divided by `num_x`, reflecting kitti.py:99.) -/
theorem createAnchors_getD (numX numY : ℕ) (whs : List (ℚ × ℚ)) (W H : ℚ)
    (i j k : ℕ) (hi : i < numX) (hj : j < numX) (hk : k < whs.length) :
    (createAnchors numX numY whs W H).getD ((i * numX + j) * whs.length + k) ⟨0, 0, 0, 0⟩ =
      ⟨W * (i + 1) / (numX + 1), H * (j + 1) / (numX + 1),
       (whs.getD k (0, 0)).1, (whs.getD k (0, 0)).2⟩ := by
  unfold createAnchors
  have hF : ∀ x : ℚ,
      ((interior H numX).flatMap
        (fun y => whs.map (fun wh => (⟨x, y, wh.1, wh.2⟩ : Box4)))).length
        = numX * whs.length := by
    intro x
    rw [flatMap_length_uniform _ whs.length (fun y => by simp), interior_length]
  have hr : j * whs.length + k < numX * whs.length := by
    calc j * whs.length + k < j * whs.length + whs.length := by omega
    _ = (j + 1) * whs.length := by ring
    _ ≤ numX * whs.length := Nat.mul_le_mul_right _ hj
  rw [show (i * numX + j) * whs.length + k
      = i * (numX * whs.length) + (j * whs.length + k) by ring]
  rw [flatMap_getD_uniform
    (fun x => (interior H numX).flatMap
      (fun y => whs.map (fun wh => (⟨x, y, wh.1, wh.2⟩ : Box4))))
    (numX * whs.length) hF ⟨0, 0, 0, 0⟩ 0 (interior W numX) i (j * whs.length + k)
    (by rw [interior_length]; exact hi) hr]
  rw [flatMap_getD_uniform
    (fun y => whs.map
      (fun wh => (⟨(interior W numX).getD i 0, y, wh.1, wh.2⟩ : Box4)))
    whs.length (fun y => by simp) ⟨0, 0, 0, 0⟩ 0 (interior H numX) j k
    (by rw [interior_length]; exact hj) hk]
  rw [map_getD
    (fun wh : ℚ × ℚ =>
      (⟨(interior W numX).getD i 0, (interior H numX).getD j 0, wh.1, wh.2⟩ : Box4))
    ⟨0, 0, 0, 0⟩ (0, 0) whs k hk]
  rw [interior_getD _ _ _ hi, interior_getD _ _ _ hj]

/-! ## Claim C9 -/

/-- Claim C9: the 20-byte little-endian box encoding round-trips: for a box
whose four `f32` fields (given by bit pattern, width and height finite and
non-negative) and `i32` class id are in range, unpacking the packed bytes
returns every field bit-exactly. -/
theorem c9_bbox_codec_roundtrip (b : BBoxBits)
    (hx : b.xb < 4294967296) (hy : b.yb < 4294967296)
    (hw : b.wb < 4294967296) (hh : b.hb < 4294967296)
    (hwfin : f32Finite b.wb) (hhfin : f32Finite b.hb)
    (hwpos : f32Nonneg b.wb) (hhpos : f32Nonneg b.hb)
    (hclo : -2147483648 ≤ b.cls) (hchi : b.cls < 2147483648) :
    decodeBBox (encodeBBox b) = some b := by
  obtain ⟨xb, yb, wb, hb2, cls⟩ := b
  have h3 : 0 ≤ cls % 4294967296 := Int.emod_nonneg cls (by norm_num)
  have h4 : cls % 4294967296 < 4294967296 := Int.emod_lt_of_pos cls (by norm_num)
  have h5 := Int.emod_add_ediv cls 4294967296
  simp only at hx hy hw hh hclo hchi
  simp [decodeBBox, encodeBBox, BBOX_WIDTH, i32bits, leBytes, leNat, decodeI32]
  refine ⟨by omega, by omega, by omega, by omega, ?_⟩
  split <;> omega

/-- Witness for C9 at the box with fields `1.0f, 2.0f, 3.0f, 4.0f` (bit
patterns) and class id 3. -/
theorem c9_bbox_codec_roundtrip_witness :
    decodeBBox (encodeBBox ⟨1065353216, 1073741824, 1077936128, 1082130432, 3⟩) =
      some ⟨1065353216, 1073741824, 1077936128, 1082130432, 3⟩ :=
  c9_bbox_codec_roundtrip ⟨1065353216, 1073741824, 1077936128, 1082130432, 3⟩
    (by decide) (by decide) (by decide) (by decide) (by decide) (by decide)
    (by decide) (by decide) (by decide) (by decide)

/-! ## Claim C1 -/

/-- Claim C1: writing one record and reading it back is claimed to return the
original image bytes, the reader consuming a size field of the same fixed
width the writer emitted.  Refuted on the code: the writer emits a 2-byte
image-size field (`IMAGE_BYTES_SLOT`), but `read_image` consumes a hard-coded
15-byte field, so reading back the freshly written record for the two-byte
image `[171, 205]` with no boxes hits the truncation branch instead of
returning the image. -/
theorem c1_record_readback_fails :
    writeRecord [171, 205] [] = [2, 0, 171, 205, 0, 0, 0, 0] ∧
    readRecord [2, 0, 171, 205, 0, 0, 0, 0] =
      (.error .truncated, [2, 0, 171, 205, 0, 0, 0, 0]) ∧
    IMAGE_BYTES_SLOT = 2 := by
  refine ⟨rfl, ?_, rfl⟩
  rfl

/-! ## Claim C7 -/

/-- Claim C7 counterexample: a stream cut off mid-record with exactly zero
bytes left — here a complete image frame (15-byte size field declaring one
byte, then that byte) followed by nothing, so the 4-byte label-size field has
0 of its 4 required bytes — is reported through the clean end-of-stream
branch, not the truncation branch, contradicting the claim that clean
end-of-stream occurs only at a record boundary. -/
theorem c7_zero_byte_cutoff_is_cleanEOS :
    readRecord [1, 0, 0, 0, 0, 0, 0, 0, 0, 0, 0, 0, 0, 0, 0, 171] =
      (.error .cleanEOS, []) ∧ Sig.cleanEOS ≠ Sig.truncated := by
  exact ⟨rfl, by decide⟩

/-- Claim C7 (amended): the reader's cursor distinguishes its two stop
signals as follows: the clean end-of-stream signal fires exactly when the
buffer is empty at the point of a read — including mid-record — and the
truncated-record signal fires exactly when the buffer is non-empty but
shorter than the requested read; a successful read returns exactly the
requested number of bytes, so a record with short image bytes is never
produced. -/
theorem c7_stop_signal_characterisation (n : ℕ) (buf : List ℕ) :
    (stepRead n buf = (.error .cleanEOS, buf) ↔ buf = []) ∧
    (stepRead n buf = (.error .truncated, buf) ↔ buf ≠ [] ∧ buf.length < n) ∧
    (buf ≠ [] → n ≤ buf.length →
      stepRead n buf = (.ok (buf.take n), buf.drop n) ∧ (buf.take n).length = n) := by
  by_cases hb : buf = []
  · subst hb
    refine ⟨by simp [stepRead], by simp [stepRead], fun h _ => absurd rfl h⟩
  · by_cases hl : buf.length < n
    · refine ⟨?_, ?_, fun _ hn => absurd hl (Nat.not_lt.mpr hn)⟩
      · unfold stepRead; simp [hb, hl]
      · unfold stepRead; simp [hb, hl]
    · refine ⟨?_, ?_, fun _ hn => ⟨stepRead_ok hb hn, ?_⟩⟩
      · rw [stepRead_ok hb (Nat.not_lt.mp hl)]; simp [hb]
      · rw [stepRead_ok hb (Nat.not_lt.mp hl)]; simp [hl]
      · simp [List.length_take]; omega

/-- Witness for the amended C7 theorem at the concrete read of 2 bytes from
the 2-byte buffer `[7, 8]`. -/
theorem c7_stop_signal_characterisation_witness :
    stepRead 2 [7, 8] = (.ok [7, 8], []) ∧ ([7, 8].take 2).length = 2 := by
  have h := (c7_stop_signal_characterisation 2 [7, 8]).2.2 (by decide) (by decide)
  simpa using h

/-! ## Claim C8 -/

/-- Claim C8: whenever the 4-byte label-size field declares a size that is
not an exact multiple of the 20-byte box width, `read_label` fails with the
malformed-label signal (the source's assertion), producing neither a partial
nor an empty box list. -/
theorem c8_malformed_label_rejected (buf : List ℕ) (h4 : 4 ≤ buf.length)
    (hm : leNat (buf.take 4) % 20 ≠ 0) :
    readLabel buf = (.error .malformedLabel, buf.drop 4) := by
  have hne : buf ≠ [] := by
    intro h
    rw [h] at h4
    simp at h4
  unfold readLabel
  rw [show BBOXES_BYTES_SLOT = 4 from rfl, stepRead_ok hne h4]
  simp [BBOX_WIDTH, hm]

/-- Witness for C8 at the declared label size 23 (the spec's own example):
buffer `[23, 0, 0, 0, 99]` declares 23 label bytes, `23 % 20 ≠ 0`, and
`read_label` fails with the malformed-label signal. -/
theorem c8_malformed_label_rejected_witness :
    4 ≤ ([23, 0, 0, 0, 99] : List ℕ).length ∧
    leNat (([23, 0, 0, 0, 99] : List ℕ).take 4) % 20 ≠ 0 ∧
    readLabel [23, 0, 0, 0, 99] = (.error .malformedLabel, [99]) := by
  refine ⟨by decide, by decide, ?_⟩
  have h := c8_malformed_label_rejected [23, 0, 0, 0, 99] (by decide) (by decide)
  simpa using h

/-! ## Claim C10 -/

/-- Claim C10 counterexample: the claim's success clause says a read of
exactly the remaining `n` bytes succeeds, but a read of the remaining 0 bytes
of an empty buffer does not succeed — `step` raises the clean end-of-stream
signal (`if not self.bytedata` fires before the length comparison). -/
theorem c10_zero_read_of_empty_fails :
    stepRead 0 [] = (.error .cleanEOS, []) := rfl

/-- Claim C10 (amended): a failing read (empty buffer, or fewer bytes than
requested) is atomic — it raises a stop signal and leaves the byte buffer
unchanged, consuming nothing; a read of exactly the remaining `n` bytes from
a NON-EMPTY buffer succeeds, returning the whole buffer and leaving it
empty. -/
theorem c10_failed_read_atomic (n : ℕ) (buf : List ℕ) :
    ((buf = [] ∨ buf.length < n) → ∃ e, stepRead n buf = (.error e, buf)) ∧
    (buf ≠ [] → n = buf.length → stepRead n buf = (.ok buf, [])) := by
  constructor
  · rintro (hb | hl)
    · subst hb
      exact ⟨.cleanEOS, rfl⟩
    · by_cases hb : buf = []
      · subst hb
        exact ⟨.cleanEOS, rfl⟩
      · refine ⟨.truncated, ?_⟩
        unfold stepRead
        simp [hb, hl]
  · intro hb hn
    subst hn
    rw [stepRead_ok hb le_rfl]
    simp

/-- Witness for the amended C10 theorem: reading 5 bytes from the 3-byte
buffer `[1, 2, 3]` fails atomically, and reading exactly its 3 remaining
bytes succeeds and empties it. -/
theorem c10_failed_read_atomic_witness :
    (∃ e, stepRead 5 [1, 2, 3] = (.error e, [1, 2, 3])) ∧
    stepRead 3 [1, 2, 3] = (.ok [1, 2, 3], []) :=
  ⟨(c10_failed_read_atomic 5 [1, 2, 3]).1 (Or.inr (by decide)),
   (c10_failed_read_atomic 3 [1, 2, 3]).2 (by decide) (by decide)⟩

/-! ## Claim C4 -/

theorem createAnchors_length (numX numY : ℕ) (whs : List (ℚ × ℚ)) (W H : ℚ) :
    (createAnchors numX numY whs W H).length = numX * numX * whs.length := by
  unfold createAnchors
  rw [flatMap_length_uniform _ (numX * whs.length) (fun x => by
    rw [flatMap_length_uniform _ whs.length (fun y => by simp), interior_length])]
  rw [interior_length]
  ring

/-- Claim C4: the anchor generator is claimed to produce exactly
`num_x * num_y * len(shapes)` anchors.  Refuted on the code: `create_anchors`
builds its `ys` from `num_x` (kitti.py:99), so with `num_x = 2`,
`num_y = 3` and one shape it produces `2 * 2 * 1 = 4` anchors, not
`2 * 3 * 1 = 6`. -/
theorem c4_anchor_count_bug :
    (createAnchors 2 3 [(1, 1)] 200 100).length = 4 ∧ 4 ≠ 2 * 3 * 1 := by
  constructor
  · rw [createAnchors_length]
    decide
  · decide

/-! ## Claim C2 -/

/-- Claim C2: the tensor position of a placed box is claimed to be recovered
from the selected anchor's flat index alone, consistently with the generation
order.  Refuted on the code: kitti.py:260-262 derives the spatial indices
from the anchor's pixel center (`anchor_x // GRID_WIDTH`,
`anchor_y // GRID_HEIGHT`), not from `anchor_index`.  For the generated
default table, the anchor at flat index `9 = cell 1 * 9 shapes + 0` sits in
cell `(grid_x, grid_y) = (0, 1)` by the index decomposition, but the code
places its box at spatial position `(0, 0)`: the `grid_y` the code writes to
differs from the one the flat index decomposes to. -/
theorem c2_placement_ignores_index_decomposition :
    gridXOf anchorsKITTI 9 = 0 ∧ gridYOf anchorsKITTI 9 = 0 ∧
    9 % ANCHORS_PER_GRID = 0 ∧
    indexDecomp GRID_HEIGHT ANCHORS_PER_GRID 9 = (0, 1, 0) ∧
    gridYOf anchorsKITTI 9 ≠ ((indexDecomp GRID_HEIGHT ANCHORS_PER_GRID 9).2.1 : ℤ) := by
  have h9 : anchorsKITTI.getD 9 ⟨0, 0, 0, 0⟩ = ⟨1242 / 77, 750 / 77, 36, 37⟩ := by
    have h := createAnchors_getD 76 22 whs9 1242 375 0 1 0
      (by norm_num) (by norm_num) (by norm_num [whs9])
    norm_num [whs9] at h
    simpa [anchorsKITTI, GRID_WIDTH, GRID_HEIGHT, whs9] using h
  have hgx : gridXOf anchorsKITTI 9 = 0 := by
    rw [gridXOf, h9]
    norm_num [GRID_WIDTH, Int.floor_eq_iff]
  have hgy : gridYOf anchorsKITTI 9 = 0 := by
    rw [gridYOf, h9]
    norm_num [GRID_HEIGHT, Int.floor_eq_iff]
  refine ⟨hgx, hgy, by decide, by decide, ?_⟩
  rw [hgy]
  decide

/-! ## Claim C3 -/

/-- Claim C3: a box with zero IoU against every anchor is claimed to be
assigned to the anchor at minimum Euclidean distance.  Refuted on the code:
the fallback builds the list of (positive) distances and takes `np.argmax`
of it (kitti.py:250-254), selecting the FARTHEST anchor.  Here
`boxNoOverlap` has IoU 0 with both anchors of `anchorsPair`, is strictly
closer to anchor 0, yet the code selects anchor 1. -/
theorem c3_fallback_selects_farthest :
    anchorsPair.map (fun a => iou a boxNoOverlap) = [0, 0] ∧
    distSq (anchorsPair.getD 0 ⟨0, 0, 0, 0⟩) boxNoOverlap <
      distSq (anchorsPair.getD 1 ⟨0, 0, 0, 0⟩) boxNoOverlap ∧
    selectAnchor anchorsPair boxNoOverlap = 1 := by
  refine ⟨?_, ?_, ?_⟩
  · norm_num [anchorsPair, boxNoOverlap, iou]
  · norm_num [anchorsPair, boxNoOverlap, distSq]
  · norm_num [selectAnchor, anchorsPair, boxNoOverlap, iou, distSq,
      listMax, argmax, argmaxFrom]

/-! ## Claim C5 -/

/-- Claim C5: the claimed-anchor set is claimed to be fresh per example, so
that an anchor claimed in one example never drops a box of another example
of the same batch.  Refuted on the code: `taken_anchor_indices` is created
once per `batch_label_to_mx` call (kitti.py:242) and shared by all examples
of the batch: with the same single box in two examples, only example 0's box
is written and example 1's box is silently dropped — while the
spec-modelled fresh-per-example encoder writes both. -/
theorem c5_claimed_set_shared_across_examples :
    encodeBatch anchorsFCFS [[boxA], [boxA]] = [⟨0, 0, 0, 0, boxA⟩] ∧
    encodeBatchFresh anchorsFCFS [[boxA], [boxA]] =
      [⟨0, 0, 0, 0, boxA⟩, ⟨1, 0, 0, 0, boxA⟩] := by
  have hsel : selectAnchor anchorsFCFS boxA = 0 := by
    norm_num [selectAnchor, listMax, argmax, argmaxFrom, iou, distSq,
      anchorsFCFS, boxA]
  have hgx : gridXOf anchorsFCFS 0 = 0 := by
    norm_num [gridXOf, anchorsFCFS, GRID_WIDTH, Int.floor_eq_iff]
  have hgy : gridYOf anchorsFCFS 0 = 0 := by
    norm_num [gridYOf, anchorsFCFS, GRID_HEIGHT, Int.floor_eq_iff]
  constructor
  · simp [encodeBatch, encodeExamples, encodeBoxes, encodeBox, hsel,
      mkWrite, hgx, hgy, ANCHORS_PER_GRID]
  · simp [encodeBatchFresh, encodeExamplesFresh, encodeBoxes, encodeBox, hsel,
      mkWrite, hgx, hgy, ANCHORS_PER_GRID]

/-! ## Claim C6 -/

/-- Claim C6: within one example, when two boxes select the same best anchor
(`selectAnchor` breaks score ties by the lowest anchor index, as `np.argmax`
does), assignment is first-come-first-served in input order: encoding
`[b1, b2]` performs exactly one write — `b1`'s geometry at that anchor's
position — silently dropping `b2`, and encoding `[b2, b1]` writes `b2`'s
geometry there and drops `b1`. -/
theorem c6_first_come_first_served (anchors : List Box4) (b1 b2 : Box4)
    (hsame : selectAnchor anchors b1 = selectAnchor anchors b2) :
    encodeBatch anchors [[b1, b2]] = [mkWrite anchors 0 (selectAnchor anchors b1) b1] ∧
    encodeBatch anchors [[b2, b1]] = [mkWrite anchors 0 (selectAnchor anchors b2) b2] := by
  constructor
  · simp [encodeBatch, encodeExamples, encodeBoxes, encodeBox, hsame]
  · simp [encodeBatch, encodeExamples, encodeBoxes, encodeBox, hsame]

/-- Witness for C6: `boxA` and `boxB` both select anchor 0 of `anchorsFCFS`;
encoding `[boxA, boxB]` writes `boxA`'s geometry only, and `[boxB, boxA]`
writes `boxB`'s geometry only. -/
theorem c6_first_come_first_served_witness :
    selectAnchor anchorsFCFS boxA = selectAnchor anchorsFCFS boxB ∧
    encodeBatch anchorsFCFS [[boxA, boxB]] = [⟨0, 0, 0, 0, boxA⟩] ∧
    encodeBatch anchorsFCFS [[boxB, boxA]] = [⟨0, 0, 0, 0, boxB⟩] := by
  have hA : selectAnchor anchorsFCFS boxA = 0 := by
    norm_num [selectAnchor, listMax, argmax, argmaxFrom, iou, distSq,
      anchorsFCFS, boxA]
  have hB : selectAnchor anchorsFCFS boxB = 0 := by
    norm_num [selectAnchor, listMax, argmax, argmaxFrom, iou, distSq,
      anchorsFCFS, boxB]
  have h := c6_first_come_first_served anchorsFCFS boxA boxB (hA.trans hB.symm)
  refine ⟨hA.trans hB.symm, ?_, ?_⟩
  · rw [h.1, hA]
    simp [mkWrite, ANCHORS_PER_GRID]
    constructor
    · norm_num [gridXOf, anchorsFCFS, GRID_WIDTH, Int.floor_eq_iff]
    · norm_num [gridYOf, anchorsFCFS, GRID_HEIGHT, Int.floor_eq_iff]
  · rw [h.2, hB]
    simp [mkWrite, ANCHORS_PER_GRID]
    constructor
    · norm_num [gridXOf, anchorsFCFS, GRID_WIDTH, Int.floor_eq_iff]
    · norm_num [gridYOf, anchorsFCFS, GRID_HEIGHT, Int.floor_eq_iff]

end SqueezeDetMX
